import Mathlib

/-!
Round completion tracking and the message store of the resharing party of tss-lib.

A shallow embedding of

* `signing/rounds.go`: the `base` round (`CanProceed`, `WaitingFor`, `WrapError`, `resetOk`);
* `ecdsa/resharing/local_party.go`: `NewLocalParty`, `Start`, `UpdateFromBytes`,
  `StoreMessage`, `Finish`.

Conventions of the embedding.

* Go slices are Lean lists; a slot of `[]tss.ParsedMessage` is an `Option ParsedMessage`
  (`none` is the Go `nil`).
* A Go run-time panic (index out of range) is the result `none` of a function returning
  `Option`; a function that cannot panic returns its result directly.
* A `*tss.Error` result is an `Option Error`, `none` being the Go `nil`.
* Pointers into the party (`&p.key`, `&p.temp`) become explicit state passing: a function
  that may mutate the party returns the new party.
* Thresholds and party counts are natural numbers; a sender index is an `Int`, because a
  `PartyID` that has not been sorted into a committee carries index `-1`.
* Logging has no effect on the state and is left out.
-/

namespace TssLib

/-! ## Data model -/

/-- Party identity `tss.PartyID`: an identifier, a unique key and the zero-based index of the
party within its committee. -/
structure PartyID where
  ID : String
  Key : Nat
  Index : Int
deriving DecidableEq, Repr

/-- Static description `tss.Parameters` of a run: the local party, the sorted committee
(`Parties().Parties()`), the party count and the threshold. -/
structure Parameters where
  partyID : PartyID
  parties : List PartyID
  partyCount : Nat
  threshold : Nat
deriving DecidableEq, Repr

/-- Accessor `Parameters.PartyID()`. -/
def Parameters.PartyID (params : Parameters) : PartyID := params.partyID

/-- Accessor `Parameters.Parties().Parties()`. -/
def Parameters.Parties (params : Parameters) : List TssLib.PartyID := params.parties

/-- Accessor `Parameters.Threshold()`. -/
def Parameters.Threshold (params : Parameters) : Nat := params.threshold

/-- Protocol error `tss.Error`: the underlying cause (its message), the task name, the round
number, the local party that reports the failure and the culprits. -/
structure Error where
  cause : String
  task : String
  round : Int
  victim : PartyID
  culprits : List PartyID
deriving DecidableEq, Repr

/-- Modelled from the spec: `tss.NewError` is declared in the `tss` package, outside the
sources at hand. Per the spec a protocol error carries "task name, round number, originating
party identity, and culprit list" next to its cause; the constructor stores its arguments. -/
def NewError (err : String) (task : String) (round : Int) (victim : PartyID)
    (culprits : List PartyID) : Error :=
  { cause := err, task := task, round := round, victim := victim, culprits := culprits }

/-- Constant `TaskName` of `rounds.go`. -/
def TaskName : String := "signing"

/-- Round state `base` of `rounds.go`. The outbound channel `out` is the party's sink and is
kept in the party record; `ok` tracks the parties that have been verified by `Update`. -/
structure base where
  Parameters : Parameters
  ok : List Bool
  started : Bool
  number : Int
deriving DecidableEq, Repr

/-! ## Base round behaviour (`rounds.go`) -/

/-- Accessor `base.Params`. -/
def base.Params (round : base) : TssLib.Parameters := round.Parameters

/-- Accessor `base.RoundNumber`. -/
def base.RoundNumber (round : base) : Int := round.number

/-- The loop `for _, ok := range round.ok` of `CanProceed`: the first false flag returns
false, running off the end returns true. -/
def base.CanProceed.loop : List Bool → Bool
  | [] => true
  | ok :: rest => if !ok then false else base.CanProceed.loop rest

/-- Method `base.CanProceed`. -/
def base.CanProceed (round : base) : Bool :=
  if !round.started then false
  else base.CanProceed.loop round.ok

/-- The loop `for j, ok := range round.ok` of `WaitingFor`: `j` is the index of the head of
the remaining flags and `ids` the slice built so far; `Ps[j]` beyond the end of `Ps` is a
run-time panic. -/
def base.WaitingFor.loop (Ps : List PartyID) : List Bool → Nat → List PartyID →
    Option (List PartyID)
  | [], _, ids => some ids
  | ok :: rest, j, ids =>
    if ok then base.WaitingFor.loop Ps rest (j + 1) ids
    else
      match Ps[j]? with
      | none => none
      | some P => base.WaitingFor.loop Ps rest (j + 1) (ids ++ [P])

/-- Method `base.WaitingFor`; `none` is the index-out-of-range panic of `Ps[j]`. -/
def base.WaitingFor (round : base) : Option (List PartyID) :=
  base.WaitingFor.loop round.Parameters.Parties round.ok 0 []

/-- Method `base.WrapError`. -/
def base.WrapError (round : base) (err : String) (culprits : List PartyID) : Error :=
  NewError err TaskName round.number round.Parameters.PartyID culprits

/-- Method `base.resetOk`: the loop over `range round.ok` assigns `false` to every entry. -/
def base.resetOk (round : base) : base :=
  { round with ok := round.ok.map (fun _ => false) }

/-- The parties still pending for a round, by the spec's words: the parties `Ps[j]` for the
indices `j` of `ok` whose flag is false, in increasing order of `j`. -/
def pending (round : base) : List PartyID :=
  ((List.range round.ok.length).filter (fun j => round.ok.getD j true == false)).filterMap
    (fun j => round.Parameters.Parties[j]?)

/-! ## The resharing party (`local_party.go`) -/

/-- Content of a parsed message, as far as the type switch of `StoreMessage` tells contents
apart: the five resharing message types, and `other` for every content of another dynamic
type (the `nil` content included). The payload is uninterpreted data. -/
inductive MessageContent
  | DGRound1Message (body : List Nat)
  | DGRound2Message1 (body : List Nat)
  | DGRound2Message2 (body : List Nat)
  | DGRound3Message1 (body : List Nat)
  | DGRound3Message2 (body : List Nat)
  | other (typeName : String) (body : List Nat)
deriving DecidableEq, Repr

/-- Parsed message `tss.ParsedMessage`: the routing envelope and the content. -/
structure ParsedMessage where
  From : PartyID
  IsBroadcast : Bool
  IsToOldCommittee : Bool
  content : MessageContent
deriving DecidableEq, Repr

/-- Accessor `ParsedMessage.GetFrom()`. -/
def ParsedMessage.GetFrom (msg : ParsedMessage) : PartyID := msg.From

/-- Accessor `ParsedMessage.Content()`. -/
def ParsedMessage.Content (msg : ParsedMessage) : MessageContent := msg.content

/-- Resharing parameters `tss.ReSharingParameters`: the embedded parameters describe the old
committee, the other fields the new one. -/
structure ReSharingParameters where
  Parameters : Parameters
  newParties : List PartyID
  newPartyCount : Nat
  newThreshold : Nat
deriving DecidableEq, Repr

/-- Accessor `ReSharingParameters.Threshold()`: the threshold of the old committee. -/
def ReSharingParameters.Threshold (params : ReSharingParameters) : Nat :=
  params.Parameters.Threshold

/-- Accessor `ReSharingParameters.PartyCount()`: the size of the old committee. -/
def ReSharingParameters.PartyCount (params : ReSharingParameters) : Nat :=
  params.Parameters.partyCount

/-- Accessor `ReSharingParameters.NewPartyCount()`. -/
def ReSharingParameters.NewPartyCount (params : ReSharingParameters) : Nat :=
  params.newPartyCount

/-- Accessor `ReSharingParameters.PartyID()`. -/
def ReSharingParameters.PartyID (params : ReSharingParameters) : TssLib.PartyID :=
  params.Parameters.PartyID

/-- Key-share record `keygen.LocalPartySaveData`, carried as uninterpreted data. -/
structure LocalPartySaveData where
  data : List Nat
deriving DecidableEq, Repr

/-- Message store `LocalMessageStore`: five slot arrays indexed by the sender's index. -/
structure LocalMessageStore where
  dgRound1Messages : List (Option ParsedMessage)
  dgRound2Message1s : List (Option ParsedMessage)
  dgRound2Message2s : List (Option ParsedMessage)
  dgRound3Message1s : List (Option ParsedMessage)
  dgRound3Message2s : List (Option ParsedMessage)
deriving DecidableEq, Repr

/-- Temporary data `LocalTempData`: the embedded message store and the values thrown away
after the rounds (`vss.Vs`, `vss.Shares`, `cmt.HashDeCommitment`, uninterpreted here). -/
structure LocalTempData where
  LocalMessageStore : LocalMessageStore
  NewVs : List (Nat × Nat)
  NewShares : List Nat
  VD : List Nat
deriving DecidableEq, Repr

/-- The zero value of `LocalTempData`: every slice is nil. -/
def LocalTempData.zero : LocalTempData :=
  { LocalMessageStore :=
      { dgRound1Messages := [], dgRound2Message1s := [], dgRound2Message2s := [],
        dgRound3Message1s := [], dgRound3Message2s := [] },
    NewVs := [], NewShares := [], VD := [] }

/-- Dynamic type of a round value, one constructor per round type declared in `rounds.go`. -/
inductive RoundType
  | preparation | round1 | round2 | round3 | round4 | round5 | round6 | round7 | round8
  | round9 | finalization
deriving DecidableEq, Repr

/-- A live round: its dynamic type and the `base` that every round type embeds. -/
structure Round where
  kind : RoundType
  base : base
deriving DecidableEq, Repr

/-- A value of the interface `tss.Round` as held in `BaseParty.Round`: the nil interface, a
nil pointer of some round type, or a pointer to a live round. -/
inductive RoundValue
  | nil
  | nilPtr (kind : RoundType)
  | ptr (round : Round)
deriving DecidableEq, Repr

/-- The live round a value points to, if any. -/
def RoundValue.live? : RoundValue → Option Round
  | .ptr round => some round
  | _ => none

/-- The test `round, ok := v.(*round1); ok && round != nil`: the value is a non-nil pointer
to a `round1`. -/
def RoundValue.isRound1 : RoundValue → Bool
  | .nil => false
  | .nilPtr _ => false
  | .ptr round => decide (round.kind = RoundType.round1)

/-- Party `LocalParty`. `Out` and `Round` are the fields of the embedded `tss.BaseParty`; the
two channels are queues of the values sent so far (`end_` is the field `end`). The mutex of
`BaseParty` is not represented: calls are run one at a time. -/
structure LocalParty where
  Out : List ParsedMessage
  Round : RoundValue
  params : ReSharingParameters
  temp : LocalTempData
  key : LocalPartySaveData
  end_ : List LocalPartySaveData
deriving DecidableEq, Repr

/-- Result of a party call that reports `(bool, *tss.Error)`: the party afterwards, the flag
and the error; `none` is a run-time panic. -/
abbrev UpdateResult := Option (LocalParty × Bool × Option Error)

/-- Slice allocation `make([]tss.ParsedMessage, n)`: `n` nil slots. -/
def makeSlots (n : Nat) : List (Option ParsedMessage) := List.replicate n none

/-- Constructor `NewLocalParty`. `newRound1` (declared in the round files of the resharing
package, outside these sources) is a parameter. -/
def NewLocalParty (newRound1 : ReSharingParameters → RoundValue) (params : ReSharingParameters)
    (key : LocalPartySaveData) (out : List ParsedMessage) (end_ : List LocalPartySaveData) :
    LocalParty :=
  let p : LocalParty :=
    { Out := out, Round := newRound1 params, params := params, temp := LocalTempData.zero,
      key := key, end_ := end_ }
  -- msgs init
  let store : LocalMessageStore :=
    { dgRound1Messages := makeSlots (params.Threshold + 1)
      dgRound2Message1s := makeSlots params.NewPartyCount
      dgRound2Message2s := makeSlots params.NewPartyCount
      dgRound3Message1s := makeSlots (params.Threshold + 1)
      dgRound3Message2s := makeSlots (params.Threshold + 1) }
  { p with temp := { p.temp with LocalMessageStore := store } }

/-- Method `LocalParty.PartyID`. -/
def LocalParty.PartyID (p : LocalParty) : TssLib.PartyID := p.params.PartyID

/-- Modelled from the spec: `p.WrapError` is promoted through the embedded `tss.BaseParty`,
which is outside the sources at hand. With a live current round it is that round's
`WrapError`, the one of `base`. Without one (nil interface or nil pointer) the spec still has
the failure reported as a protocol error that "attaches task name, round number, and local
party identity"; there being no round to take a number from, the number attached then is the
parameter `noRound`. -/
def LocalParty.WrapError (noRound : Int) (p : LocalParty) (err : String)
    (culprits : List TssLib.PartyID) : Error :=
  match p.Round with
  | .ptr round => round.base.WrapError err culprits
  | _ => NewError err TaskName noRound p.PartyID culprits

/-- The message of the error that `Start` reports in an unexpected state. -/
def couldNotStart : String :=
  "could not start. this party is in an unexpected state. use the constructor and Start()"

/-- Method `LocalParty.Start`. The guard `round, ok := p.Round.(*round1); !ok || round == nil`
fails for the nil interface (`!ok`), for a nil pointer (`!ok` for another type, `round == nil`
for a `round1`) and for a live round of another type (`!ok`). The start logic of round 1
(`p.Round.Start()`, declared in the round files of the resharing package) is the parameter
`roundStart`; it may change the whole party through the pointers the round holds, and `none`
is a panic inside it. -/
def LocalParty.Start (noRound : Int)
    (roundStart : LocalParty → Option (LocalParty × Option Error))
    (p : LocalParty) : Option (LocalParty × Option Error) :=
  match p.Round with
  | .nil => some (p, some (p.WrapError noRound couldNotStart []))
  | .nilPtr _ => some (p, some (p.WrapError noRound couldNotStart []))
  | .ptr round =>
    if round.kind = RoundType.round1 then roundStart p
    else some (p, some (p.WrapError noRound couldNotStart []))

/-- Method `LocalParty.UpdateFromBytes`. `ParseWireMessage` and `Update` (which delegates to
`tss.BaseUpdate`) are declared in the `tss` package and are parameters. -/
def LocalParty.UpdateFromBytes (noRound : Int)
    (ParseWireMessage : List Nat → TssLib.PartyID → Bool → Bool → Except String ParsedMessage)
    (Update : LocalParty → ParsedMessage → UpdateResult)
    (p : LocalParty) (wireBytes : List Nat) (from_ : TssLib.PartyID)
    (isBroadcast isToOldCommittee : Bool) : UpdateResult :=
  match ParseWireMessage wireBytes from_ isBroadcast isToOldCommittee with
  | .error err => some (p, false, some (p.WrapError noRound err []))
  | .ok msg => Update p msg

/-- Slot assignment `slots[fromPIdx] = msg`: an index outside `0 .. len(slots)-1` panics. -/
def storeAt (slots : List (Option ParsedMessage)) (fromPIdx : Int) (msg : ParsedMessage) :
    Option (List (Option ParsedMessage)) :=
  if 0 ≤ fromPIdx ∧ fromPIdx < slots.length then some (slots.set fromPIdx.toNat (some msg))
  else none

/-- The party with its message store replaced. -/
def LocalParty.withStore (p : LocalParty) (store : LocalMessageStore) : LocalParty :=
  { p with temp := { p.temp with LocalMessageStore := store } }

/-- Method `LocalParty.StoreMessage`. -/
def LocalParty.StoreMessage (p : LocalParty) (msg : ParsedMessage) : UpdateResult :=
  let fromPIdx := msg.GetFrom.Index
  let store := p.temp.LocalMessageStore
  match msg.Content with
  | .DGRound1Message _ =>
    (storeAt store.dgRound1Messages fromPIdx msg).map fun slots =>
      (p.withStore { store with dgRound1Messages := slots }, true, none)
  | .DGRound2Message1 _ =>
    (storeAt store.dgRound2Message1s fromPIdx msg).map fun slots =>
      (p.withStore { store with dgRound2Message1s := slots }, true, none)
  | .DGRound2Message2 _ =>
    (storeAt store.dgRound2Message2s fromPIdx msg).map fun slots =>
      (p.withStore { store with dgRound2Message2s := slots }, true, none)
  | .DGRound3Message1 _ =>
    (storeAt store.dgRound3Message1s fromPIdx msg).map fun slots =>
      (p.withStore { store with dgRound3Message1s := slots }, true, none)
  | .DGRound3Message2 _ =>
    (storeAt store.dgRound3Message2s fromPIdx msg).map fun slots =>
      (p.withStore { store with dgRound3Message2s := slots }, true, none)
  | .other _ _ => some (p, false, none) -- unrecognised message, just ignore!

/-- Method `LocalParty.Finish`: the send `p.end <- p.key`. -/
def LocalParty.Finish (p : LocalParty) : LocalParty :=
  { p with end_ := p.end_ ++ [p.key] }

/-! ## Vocabulary of the statements -/

/-- The five recognised message kinds, one per slot array. -/
inductive SlotKind
  | DGRound1Message | DGRound2Message1 | DGRound2Message2 | DGRound3Message1
  | DGRound3Message2
deriving DecidableEq, Repr

/-- The recognised kind of a content, if it has one. -/
def MessageContent.slotKind : MessageContent → Option SlotKind
  | .DGRound1Message _ => some .DGRound1Message
  | .DGRound2Message1 _ => some .DGRound2Message1
  | .DGRound2Message2 _ => some .DGRound2Message2
  | .DGRound3Message1 _ => some .DGRound3Message1
  | .DGRound3Message2 _ => some .DGRound3Message2
  | .other _ _ => none

/-- The slot array of a kind. -/
def LocalMessageStore.slots (store : LocalMessageStore) : SlotKind → List (Option ParsedMessage)
  | .DGRound1Message => store.dgRound1Messages
  | .DGRound2Message1 => store.dgRound2Message1s
  | .DGRound2Message2 => store.dgRound2Message2s
  | .DGRound3Message1 => store.dgRound3Message1s
  | .DGRound3Message2 => store.dgRound3Message2s

/-- The slot array of a kind in a party. -/
def LocalParty.slots (p : LocalParty) (K : SlotKind) : List (Option ParsedMessage) :=
  p.temp.LocalMessageStore.slots K

/-- The message store with the slot array of one kind replaced. -/
def LocalMessageStore.setSlots (store : LocalMessageStore) (K : SlotKind)
    (slots : List (Option ParsedMessage)) : LocalMessageStore :=
  match K with
  | .DGRound1Message => { store with dgRound1Messages := slots }
  | .DGRound2Message1 => { store with dgRound2Message1s := slots }
  | .DGRound2Message2 => { store with dgRound2Message2s := slots }
  | .DGRound3Message1 => { store with dgRound3Message1s := slots }
  | .DGRound3Message2 => { store with dgRound3Message2s := slots }

/-- The party with the slot array of one kind replaced. -/
def LocalParty.withSlots (p : LocalParty) (K : SlotKind)
    (slots : List (Option ParsedMessage)) : LocalParty :=
  p.withStore (p.temp.LocalMessageStore.setSlots K slots)

/-- The committee whose members send a kind: the old committee sends the round 1 and round 3
messages, the new committee the round 2 messages. -/
def SlotKind.fromOldCommittee : SlotKind → Bool
  | .DGRound1Message => true
  | .DGRound2Message1 => false
  | .DGRound2Message2 => false
  | .DGRound3Message1 => true
  | .DGRound3Message2 => true

/-- The number of members of the committee that sends a kind. -/
def senderCommitteeSize (params : ReSharingParameters) (K : SlotKind) : Nat :=
  if K.fromOldCommittee then params.PartyCount else params.NewPartyCount

/-- The assignment `round.ok[j] = true` by which the `Update` of a round marks the party of
index `j` as verified, for an index `j` below `len(round.ok)`. -/
def base.setOk (round : base) (j : Nat) : base :=
  { round with ok := round.ok.set j true }

/-- The parties of `Ps` whose flag in `oks` is false, read off position by position: the
party list and the flag list are walked together. -/
def pendingZip (Ps : List PartyID) (oks : List Bool) : List PartyID :=
  ((Ps.zip oks).filter (fun x => !x.2)).map Prod.fst

/-- The party after `n` calls of `Finish` in a row. -/
def LocalParty.finishTimes (p : LocalParty) : Nat → LocalParty
  | 0 => p
  | n + 1 => (p.finishTimes n).Finish

/-! ## Sample data -/

/-- Sample party identities `P0, P1, ...`: party `i` has index `i`. -/
def P (i : Nat) : PartyID := { ID := "P", Key := i + 1, Index := i }

/-- Sample parameters of party `P0` in the committee `P0, P1, P2` with threshold 1. -/
def sampleParameters : Parameters :=
  { partyID := P 0, parties := [P 0, P 1, P 2], partyCount := 3, threshold := 1 }

/-- Sample resharing parameters: old committee `P0, P1, P2` with old threshold 1, new
committee `P3, P4`. -/
def sampleReSharingParameters : ReSharingParameters :=
  { Parameters := sampleParameters, newParties := [P 3, P 4], newPartyCount := 2,
    newThreshold := 1 }

/-- Sample round: a round of the given dynamic type and number that tracks two peers. -/
def sampleRound (kind : RoundType) (number : Int) : Round :=
  { kind := kind,
    base := { Parameters := sampleParameters, ok := [false, false], started := false,
              number := number } }

/-- Sample value for the parameter `newRound1`: an unstarted round 1 numbered 1. -/
def sampleNewRound1 (params : ReSharingParameters) : RoundValue :=
  .ptr { kind := .round1,
         base := { Parameters := params.Parameters,
                   ok := List.replicate (params.Threshold + 1) false, started := false,
                   number := 1 } }

/-- Sample round state: started, `P0` verified, `P1` and `P2` still pending. -/
def sampleTracking : base :=
  { Parameters := sampleParameters, ok := [true, false, false], started := true, number := 2 }

/-- Sample round state: every tracked peer verified, but the round not started. -/
def sampleUnstarted : base :=
  { Parameters := sampleParameters, ok := [true, true], started := false, number := 2 }

/-- Sample round state: started and every tracked peer verified. -/
def sampleComplete : base :=
  { Parameters := sampleParameters, ok := [true, true, true], started := true, number := 2 }

/-- Sample round state with two flags but a party list of one entry. -/
def sampleShortCommittee : base :=
  { Parameters := { sampleParameters with parties := [P 0], partyCount := 1 },
    ok := [true, false], started := true, number := 2 }

/-- Sample round state whose party list names `P0` twice; the first flag is true. -/
def sampleRepeatedParty : base :=
  { Parameters := { sampleParameters with parties := [P 0, P 0], partyCount := 2 },
    ok := [true, false], started := true, number := 2 }

/-- Sample key-share record. -/
def sampleKey : LocalPartySaveData := { data := [7, 11] }

/-- Sample party: the one `NewLocalParty` builds for the sample resharing parameters. -/
def sampleParty : LocalParty :=
  NewLocalParty sampleNewRound1 sampleReSharingParameters sampleKey [] []

/-- Sample message of a given content from party `Pi`. -/
def sampleMessage (i : Nat) (content : MessageContent) : ParsedMessage :=
  { From := P i, IsBroadcast := true, IsToOldCommittee := false, content := content }

/-- Sample message of a kind the resharing party does not know, from a sender that has not
been sorted into a committee (index `-1`). -/
def sampleForeignMessage : ParsedMessage :=
  { From := { ID := "Q", Key := 99, Index := -1 }, IsBroadcast := true,
    IsToOldCommittee := false, content := .other "KGRound1Message" [5] }

/-- Sample value for the parameter `ParseWireMessage`: a wire message is one tag byte, one
length byte and that many payload bytes; anything shorter is a truncated input. -/
def sampleParseWireMessage (wireBytes : List Nat) (from_ : PartyID)
    (isBroadcast isToOldCommittee : Bool) : Except String ParsedMessage :=
  match wireBytes with
  | tag :: len :: body =>
    if body.length < len then .error "unexpected EOF"
    else
      .ok { From := from_, IsBroadcast := isBroadcast, IsToOldCommittee := isToOldCommittee,
            content := if tag = 1 then .DGRound1Message body else .other "unknown" body }
  | _ => .error "unexpected EOF"

/-- Sample value for the parameter `Update`: store the message. -/
def sampleUpdate (p : LocalParty) (msg : ParsedMessage) : UpdateResult :=
  p.StoreMessage msg

/-- Sample value for the parameter `roundStart`: mark the round started. -/
def sampleRoundStart (p : LocalParty) : Option (LocalParty × Option Error) :=
  match p.Round with
  | .ptr round =>
    some ({ p with Round := .ptr { round with base := { round.base with started := true } } },
      none)
  | _ => none

/-- Sample party positioned at round 2. -/
def samplePartyRound2 : LocalParty :=
  { sampleParty with Round := .ptr (sampleRound .round2 2) }

/-- Sample party whose current round is a nil pointer of type `round1`. -/
def samplePartyNilRound1 : LocalParty :=
  { sampleParty with Round := .nilPtr .round1 }

/-- Sample party whose current round is the nil interface. -/
def samplePartyNoRound : LocalParty :=
  { sampleParty with Round := .nil }

/-! ## Lemmas on the loops -/

theorem CanProceed_loop_iff (oks : List Bool) :
    base.CanProceed.loop oks = true ↔ ∀ b ∈ oks, b = true := by
  induction oks with
  | nil => simp [base.CanProceed.loop]
  | cons ok rest ih =>
    cases ok <;> simp [base.CanProceed.loop, ih]

theorem WaitingFor_loop_nil_iff (Ps : List PartyID) (oks : List Bool) (j : Nat)
    (ids : List PartyID) :
    base.WaitingFor.loop Ps oks j ids = some [] ↔ ids = [] ∧ ∀ b ∈ oks, b = true := by
  induction oks generalizing j ids with
  | nil => simp [base.WaitingFor.loop]
  | cons ok rest ih =>
    cases ok
    · cases hP : Ps[j]? with
      | none => simp [base.WaitingFor.loop, hP]
      | some Q => simp [base.WaitingFor.loop, hP, ih]
    · simp [base.WaitingFor.loop, ih]

theorem WaitingFor_loop_eq (Ps : List PartyID) (oks : List Bool) (j : Nat)
    (ids : List PartyID) (h : j + oks.length ≤ Ps.length) :
    base.WaitingFor.loop Ps oks j ids =
      some (ids ++ ((List.range oks.length).filter
        (fun i => oks.getD i true == false)).filterMap (fun i => Ps[j + i]?)) := by
  induction oks generalizing j ids with
  | nil => simp [base.WaitingFor.loop]
  | cons ok rest ih =>
    have hlen : j + 1 + rest.length ≤ Ps.length := by
      simp only [List.length_cons] at h; omega
    have hj : j < Ps.length := by
      simp only [List.length_cons] at h; omega
    have hshift : ∀ i, j + 1 + i = j + (i + 1) := fun i => by omega
    cases ok
    · obtain ⟨Q, hQ⟩ : ∃ Q, Ps[j]? = some Q := ⟨Ps[j], List.getElem?_eq_getElem hj⟩
      simp only [base.WaitingFor.loop, hQ, ih (j + 1) (ids ++ [Q]) hlen, List.length_cons,
        List.range_succ_eq_map, List.filter_cons, List.filter_map, List.filterMap_map,
        List.filterMap_cons]
      simp [Function.comp_def, hshift, hQ, List.filterMap_map]
    · simp only [base.WaitingFor.loop, ih (j + 1) ids hlen, List.length_cons,
        List.range_succ_eq_map, List.filter_cons, List.filter_map, List.filterMap_map]
      simp [Function.comp_def, hshift]

theorem WaitingFor_loop_length (Ps : List PartyID) (oks : List Bool) (j : Nat)
    (ids r : List PartyID) (h : base.WaitingFor.loop Ps oks j ids = some r) :
    r.length = ids.length + oks.count false := by
  induction oks generalizing j ids with
  | nil =>
    simp only [base.WaitingFor.loop, Option.some.injEq] at h
    simp [h]
  | cons ok rest ih =>
    cases ok
    · cases hP : Ps[j]? with
      | none => simp [base.WaitingFor.loop, hP] at h
      | some Q =>
        simp only [base.WaitingFor.loop, hP] at h
        have := ih (j + 1) (ids ++ [Q]) (by simpa using h)
        simp only [List.length_append, List.length_singleton] at this
        simp only [List.count_cons_self]
        omega
    · simp only [base.WaitingFor.loop] at h
      have := ih (j + 1) ids (by simpa using h)
      simpa using this

theorem WaitingFor_loop_eq_pendingZip (Ps : List PartyID) (oks : List Bool) (j : Nat)
    (ids : List PartyID) (h : j + oks.length ≤ Ps.length) :
    base.WaitingFor.loop Ps oks j ids = some (ids ++ pendingZip (Ps.drop j) oks) := by
  induction oks generalizing j ids with
  | nil => simp [base.WaitingFor.loop, pendingZip]
  | cons ok rest ih =>
    have hlen : j + 1 + rest.length ≤ Ps.length := by
      simp only [List.length_cons] at h; omega
    have hj : j < Ps.length := by
      simp only [List.length_cons] at h; omega
    have hd : Ps.drop j = Ps[j] :: Ps.drop (j + 1) := List.drop_eq_getElem_cons hj
    have hQ : Ps[j]? = some Ps[j] := List.getElem?_eq_getElem hj
    cases ok
    · simp only [base.WaitingFor.loop, hQ, ih (j + 1) (ids ++ [Ps[j]]) hlen]
      rw [hd]
      simp [pendingZip, -List.getElem_cons_drop]
    · simp only [base.WaitingFor.loop, ih (j + 1) ids hlen]
      rw [hd]
      simp [pendingZip, -List.getElem_cons_drop]

theorem WaitingFor_eq_pendingZip (round : base)
    (h : round.ok.length ≤ round.Parameters.Parties.length) :
    round.WaitingFor = some (pendingZip round.Parameters.Parties round.ok) := by
  have := WaitingFor_loop_eq_pendingZip round.Parameters.Parties round.ok 0 [] (by omega)
  simpa [base.WaitingFor] using this

theorem pendingZip_subset (Ps : List PartyID) (oks : List Bool) (Q : PartyID)
    (h : Q ∈ pendingZip Ps oks) : Q ∈ Ps := by
  simp only [pendingZip, List.mem_map, List.mem_filter] at h
  obtain ⟨⟨a, b⟩, ⟨hz, _⟩, rfl⟩ := h
  exact (List.of_mem_zip hz).1

theorem pendingZip_sublist (Ps : List PartyID) (oks : List Bool) :
    (pendingZip Ps oks).Sublist Ps := by
  induction oks generalizing Ps with
  | nil => simp [pendingZip]
  | cons ok rest ih =>
    cases Ps with
    | nil => simp [pendingZip]
    | cons Q Qs =>
      have := ih Qs
      simp only [pendingZip] at this
      cases ok
      · simpa [pendingZip] using this
      · simpa [pendingZip] using this.cons Q

theorem pendingZip_replicate_false (Ps : List PartyID) (n : Nat) :
    pendingZip Ps (List.replicate n false) = Ps.take n := by
  induction n generalizing Ps with
  | zero => simp [pendingZip]
  | succ n ih =>
    cases Ps with
    | nil => simp [pendingZip]
    | cons Q Qs =>
      have := ih Qs
      simp only [pendingZip] at this
      simp [pendingZip, List.replicate_succ, this]

theorem pendingZip_set_sublist (Ps : List PartyID) (oks : List Bool) (j : Nat) :
    (pendingZip Ps (oks.set j true)).Sublist (pendingZip Ps oks) := by
  induction oks generalizing Ps j with
  | nil => simp
  | cons ok rest ih =>
    cases Ps with
    | nil => simp [pendingZip]
    | cons Q Qs =>
      cases j with
      | zero =>
        cases ok
        · simp [pendingZip]
        · simp [pendingZip]
      | succ j =>
        have := ih Qs j
        simp only [pendingZip] at this
        cases ok
        · simpa [pendingZip] using this
        · simpa [pendingZip] using this

theorem pendingZip_set_erase (Ps : List PartyID) (oks : List Bool) (j : Nat) (Q : PartyID)
    (hnd : Ps.Nodup) (hQ : Ps[j]? = some Q) :
    pendingZip Ps (oks.set j true) = (pendingZip Ps oks).erase Q := by
  induction oks generalizing Ps j with
  | nil =>
    simp [pendingZip]
  | cons ok rest ih =>
    cases Ps with
    | nil => simp at hQ
    | cons R Rs =>
      have hR : R ∉ Rs := (List.nodup_cons.mp hnd).1
      have hRs : Rs.Nodup := (List.nodup_cons.mp hnd).2
      cases j with
      | zero =>
        simp only [List.getElem?_cons_zero, Option.some.injEq] at hQ
        subst hQ
        cases ok
        · simp [pendingZip]
        · have hno : R ∉ pendingZip Rs rest := fun hin => hR (pendingZip_subset _ _ _ hin)
          have := List.erase_of_not_mem hno
          simp only [pendingZip] at this
          simp [pendingZip, this]
      | succ j =>
        simp only [List.getElem?_cons_succ] at hQ
        have hne : R ≠ Q := by
          intro h
          subst h
          exact hR (List.getElem?_mem hQ)
        have := ih Rs j hRs hQ
        simp only [pendingZip] at this
        cases ok
        · simp only [pendingZip, List.set_cons_succ, List.zip_cons_cons, Bool.not_false,
            List.filter_cons_of_pos, List.map_cons, this]
          rw [List.erase_cons_tail (by simpa using hne)]
        · simpa [pendingZip] using this

/-! ## Lemmas on the message store -/

theorem storeAt_of_inRange (slots : List (Option ParsedMessage)) (i : Int)
    (msg : ParsedMessage) (hlo : 0 ≤ i) (hhi : i < slots.length) :
    storeAt slots i msg = some (slots.set i.toNat (some msg)) := by
  simp [storeAt, hlo, hhi]

theorem storeAt_of_outOfRange (slots : List (Option ParsedMessage)) (i : Int)
    (msg : ParsedMessage) (h : ¬ (0 ≤ i ∧ i < slots.length)) :
    storeAt slots i msg = none := by
  simp only [storeAt, h, if_false]

theorem StoreMessage_of_slotKind (p : LocalParty) (msg : ParsedMessage) (K : SlotKind)
    (hK : msg.Content.slotKind = some K) :
    p.StoreMessage msg =
      (storeAt (p.slots K) msg.GetFrom.Index msg).map
        fun slots => (p.withSlots K slots, true, none) := by
  unfold LocalParty.StoreMessage
  cases hc : msg.Content <;> rw [hc] at hK <;>
    simp only [MessageContent.slotKind, Option.some.injEq, reduceCtorEq] at hK <;>
    subst hK <;> rfl

theorem StoreMessage_of_inRange (p : LocalParty) (msg : ParsedMessage) (K : SlotKind)
    (hK : msg.Content.slotKind = some K) (hlo : 0 ≤ msg.GetFrom.Index)
    (hhi : msg.GetFrom.Index < (p.slots K).length) :
    p.StoreMessage msg =
      some (p.withSlots K ((p.slots K).set msg.GetFrom.Index.toNat (some msg)), true, none) := by
  rw [StoreMessage_of_slotKind p msg K hK, storeAt_of_inRange _ _ _ hlo hhi]
  rfl

theorem slots_withSlots_same (p : LocalParty) (K : SlotKind)
    (slots : List (Option ParsedMessage)) : (p.withSlots K slots).slots K = slots := by
  cases K <;> rfl

theorem slots_withSlots_other (p : LocalParty) (K K2 : SlotKind)
    (slots : List (Option ParsedMessage)) (h : K2 ≠ K) :
    (p.withSlots K slots).slots K2 = p.slots K2 := by
  cases K <;> cases K2 <;> first | rfl | exact absurd rfl h

theorem withSlots_withSlots_same (p : LocalParty) (K : SlotKind)
    (s1 s2 : List (Option ParsedMessage)) :
    (p.withSlots K s1).withSlots K s2 = p.withSlots K s2 := by
  cases K <;> rfl

theorem length_slots_withSlots_set (p : LocalParty) (K K2 : SlotKind) (i : Nat)
    (v : Option ParsedMessage) :
    ((p.withSlots K ((p.slots K).set i v)).slots K2).length = (p.slots K2).length := by
  by_cases h : K2 = K
  · subst h; rw [slots_withSlots_same]; simp
  · rw [slots_withSlots_other _ _ _ _ h]

theorem withSlots_comm (p : LocalParty) (K1 K2 : SlotKind)
    (s1 s2 : List (Option ParsedMessage)) (h : K1 ≠ K2) :
    (p.withSlots K1 s1).withSlots K2 s2 = (p.withSlots K2 s2).withSlots K1 s1 := by
  cases K1 <;> cases K2 <;> first | rfl | exact absurd rfl h

/-! ## Lemmas on the lifecycle -/

theorem Start_of_round1 (noRound : Int)
    (roundStart : LocalParty → Option (LocalParty × Option Error))
    (p : LocalParty) (h : p.Round.isRound1 = true) :
    p.Start noRound roundStart = roundStart p := by
  unfold LocalParty.Start
  cases hr : p.Round with
  | nil => simp [hr, RoundValue.isRound1] at h
  | nilPtr k => simp [hr, RoundValue.isRound1] at h
  | ptr round =>
    simp only [hr, RoundValue.isRound1, decide_eq_true_eq] at h
    simp [h]

theorem Start_of_not_round1 (noRound : Int)
    (roundStart : LocalParty → Option (LocalParty × Option Error))
    (p : LocalParty) (h : p.Round.isRound1 = false) :
    p.Start noRound roundStart = some (p, some (p.WrapError noRound couldNotStart [])) := by
  unfold LocalParty.Start
  cases hr : p.Round with
  | nil => rfl
  | nilPtr k => rfl
  | ptr round =>
    simp only [hr, RoundValue.isRound1, decide_eq_false_iff_not] at h
    simp [h]

theorem WrapError_cause_culprits (noRound : Int) (p : LocalParty) (err : String)
    (culprits : List PartyID) :
    (p.WrapError noRound err culprits).cause = err ∧
    (p.WrapError noRound err culprits).culprits = culprits := by
  unfold LocalParty.WrapError
  cases p.Round <;> exact ⟨rfl, rfl⟩

theorem finishTimes_frame (p : LocalParty) (n : Nat) :
    (p.finishTimes n).end_ = p.end_ ++ List.replicate n p.key ∧
    (p.finishTimes n).key = p.key ∧ (p.finishTimes n).temp = p.temp ∧
    (p.finishTimes n).Round = p.Round ∧ (p.finishTimes n).Out = p.Out ∧
    (p.finishTimes n).params = p.params := by
  induction n with
  | zero => simp [LocalParty.finishTimes]
  | succ n ih =>
    obtain ⟨h1, h2, h3, h4, h5, h6⟩ := ih
    refine ⟨?_, h2, h3, h4, h5, h6⟩
    simp only [LocalParty.finishTimes, LocalParty.Finish, h1, h2, List.replicate_succ',
      List.append_assoc]

/-! ## Completion tracking -/

/-- C1: for every round state, `CanProceed` returns true if and only if `started` is true and
every entry of `ok` is true (the empty list and a one-element list included). -/
theorem CanProceed_iff_started_and_all_ok (round : base) :
    round.CanProceed = true ↔ (round.started = true ∧ ∀ b ∈ round.ok, b = true) := by
  unfold base.CanProceed
  cases hs : round.started
  · simp
  · simp [CanProceed_loop_iff]

/-- C2: for every round state whose party list has at least `len(ok)` entries, `WaitingFor`
returns (without panicking) exactly the parties `Ps[j]` for the indices `j` with
`ok[j] = false`, in increasing order of `j`, one entry per such index; its length is the
number of false flags, its members are the parties at the false indices, and, the parties of
the list being pairwise distinct, no party whose flag is true appears. -/
theorem WaitingFor_eq_pending (round : base)
    (h : round.ok.length ≤ round.Parameters.Parties.length) :
    round.WaitingFor = some (pending round) ∧
    (pending round).length = round.ok.count false ∧
    (∀ Q, Q ∈ pending round ↔
      ∃ j : Nat, round.ok[j]? = some false ∧ round.Parameters.Parties[j]? = some Q) ∧
    (round.Parameters.Parties.Nodup →
      ∀ (j : Nat) (Q : PartyID), round.ok[j]? = some true → round.Parameters.Parties[j]? = some Q →
        Q ∉ pending round) := by
  have hmem : ∀ Q, Q ∈ pending round ↔
      ∃ j : Nat, round.ok[j]? = some false ∧ round.Parameters.Parties[j]? = some Q := by
    intro Q
    simp only [pending, List.mem_filterMap, List.mem_filter, List.mem_range]
    constructor
    · rintro ⟨j, ⟨hj, hf⟩, hQ⟩
      refine ⟨j, ?_, hQ⟩
      simp [List.getD, List.getElem?_eq_getElem hj] at hf ⊢
      exact hf
    · rintro ⟨j, hf, hQ⟩
      obtain ⟨hj, hv⟩ := List.getElem?_eq_some_iff.mp hf
      exact ⟨j, ⟨hj, by simp [List.getD, hf]⟩, hQ⟩
  have hW : round.WaitingFor = some (pending round) := by
    have := WaitingFor_loop_eq round.Parameters.Parties round.ok 0 [] (by omega)
    simpa [base.WaitingFor, pending] using this
  refine ⟨hW, ?_, hmem, ?_⟩
  · have := WaitingFor_loop_length _ _ _ _ _ hW
    simpa using this
  · intro hnd j Q hj hQ hin
    obtain ⟨i, hi, hQi⟩ := (hmem Q).mp hin
    have hij : i = j := by
      obtain ⟨hi1, hi2⟩ := List.getElem?_eq_some_iff.mp hQi
      obtain ⟨hj1, hj2⟩ := List.getElem?_eq_some_iff.mp hQ
      exact (List.Nodup.getElem_inj_iff hnd).mp (hi2.trans hj2.symm)
    subst hij
    rw [hi] at hj
    cases hj

/-- Witness for C2: the started sample round with flags `true, false, false` over the
committee `P0, P1, P2` is waiting for `P1, P2`. -/
theorem WaitingFor_eq_pending_witness :
    sampleTracking.ok.length ≤ sampleTracking.Parameters.Parties.length ∧
    sampleTracking.WaitingFor = some (pending sampleTracking) ∧
    pending sampleTracking = [P 1, P 2] :=
  ⟨by decide, (WaitingFor_eq_pending sampleTracking (by decide)).1, by decide⟩

/-- Counterexample for C3: the sample round that was never started has every flag true, so
`WaitingFor` returns the empty sequence, and yet `CanProceed` returns false. -/
theorem WaitingFor_empty_and_not_CanProceed :
    sampleUnstarted.WaitingFor = some [] ∧ sampleUnstarted.CanProceed = false ∧
    ¬ (sampleUnstarted.WaitingFor = some [] ↔ sampleUnstarted.CanProceed = true) := by
  decide

/-- C3 (amended): for every round state, `CanProceed` returns true if and only if `started`
is true and `WaitingFor` returns the empty sequence. -/
theorem CanProceed_iff_started_and_WaitingFor_empty (round : base) :
    round.CanProceed = true ↔ (round.started = true ∧ round.WaitingFor = some []) := by
  unfold base.CanProceed base.WaitingFor
  rw [WaitingFor_loop_nil_iff]
  cases hs : round.started
  · simp
  · simp [CanProceed_loop_iff]

/-! ## The message store -/

/-- C4: the claim evaluated on the code at old committee `P0, P1, P2` with old threshold 1
and a `DGRound1Message` from `P2`. The sender index 2 is a valid index of the old committee
of 3, but the slot array built by `NewLocalParty` has `t+1 = 2` slots, so the assignment
`dgRound1Messages[2] = msg` is out of range: `StoreMessage` panics and returns nothing. The same
holds for the two round 3 kinds, whatever round constructor, key and sinks the party was
built with. -/
theorem StoreMessage_from_P2_out_of_range (newRound1 : ReSharingParameters → RoundValue)
    (key : LocalPartySaveData) (out : List ParsedMessage) (end_ : List LocalPartySaveData)
    (body : List Nat) :
    sampleReSharingParameters.PartyCount = 3 ∧
    sampleReSharingParameters.Threshold = 1 ∧
    (0 ≤ (P 2).Index ∧
      (P 2).Index < senderCommitteeSize sampleReSharingParameters .DGRound1Message ∧
      (P 2).Index < senderCommitteeSize sampleReSharingParameters .DGRound3Message1 ∧
      (P 2).Index < senderCommitteeSize sampleReSharingParameters .DGRound3Message2) ∧
    ((NewLocalParty newRound1 sampleReSharingParameters key out end_).slots
      .DGRound1Message).length = 2 ∧
    (NewLocalParty newRound1 sampleReSharingParameters key out end_).StoreMessage
      (sampleMessage 2 (.DGRound1Message body)) = none ∧
    (NewLocalParty newRound1 sampleReSharingParameters key out end_).StoreMessage
      (sampleMessage 2 (.DGRound3Message1 body)) = none ∧
    (NewLocalParty newRound1 sampleReSharingParameters key out end_).StoreMessage
      (sampleMessage 2 (.DGRound3Message2 body)) = none := by
  refine ⟨rfl, rfl, by decide, rfl, ?_, ?_, ?_⟩ <;> rfl

/-- C5: for every resharing parameters with old threshold `t` and new party count `M`, the
party returned by `NewLocalParty` has `dgRound1Messages`, `dgRound3Message1s` and
`dgRound3Message2s` of length exactly `t+1` and `dgRound2Message1s`, `dgRound2Message2s` of
length exactly `M`, every slot nil; replacing the old committee by any other party list and
party count leaves these arrays the same. -/
theorem NewLocalParty_slot_arrays (newRound1 : ReSharingParameters → RoundValue)
    (params : ReSharingParameters) (key : LocalPartySaveData) (out : List ParsedMessage)
    (end_ : List LocalPartySaveData) :
    ((NewLocalParty newRound1 params key out end_).temp.LocalMessageStore.dgRound1Messages
        = List.replicate (params.Threshold + 1) none ∧
      (NewLocalParty newRound1 params key out end_).temp.LocalMessageStore.dgRound2Message1s
        = List.replicate params.NewPartyCount none ∧
      (NewLocalParty newRound1 params key out end_).temp.LocalMessageStore.dgRound2Message2s
        = List.replicate params.NewPartyCount none ∧
      (NewLocalParty newRound1 params key out end_).temp.LocalMessageStore.dgRound3Message1s
        = List.replicate (params.Threshold + 1) none ∧
      (NewLocalParty newRound1 params key out end_).temp.LocalMessageStore.dgRound3Message2s
        = List.replicate (params.Threshold + 1) none) ∧
    ((NewLocalParty newRound1 params key out
        end_).temp.LocalMessageStore.dgRound1Messages.length = params.Threshold + 1 ∧
      (NewLocalParty newRound1 params key out
        end_).temp.LocalMessageStore.dgRound2Message1s.length = params.NewPartyCount ∧
      (NewLocalParty newRound1 params key out
        end_).temp.LocalMessageStore.dgRound2Message2s.length = params.NewPartyCount ∧
      (NewLocalParty newRound1 params key out
        end_).temp.LocalMessageStore.dgRound3Message1s.length = params.Threshold + 1 ∧
      (NewLocalParty newRound1 params key out
        end_).temp.LocalMessageStore.dgRound3Message2s.length = params.Threshold + 1) ∧
    (∀ (K : SlotKind) (slot : Option ParsedMessage),
      slot ∈ (NewLocalParty newRound1 params key out end_).slots K → slot = none) ∧
    (∀ (oldParties : List PartyID) (N : Nat),
      (NewLocalParty newRound1
        { params with
          Parameters := { params.Parameters with parties := oldParties, partyCount := N } }
        key out end_).temp.LocalMessageStore
      = (NewLocalParty newRound1 params key out end_).temp.LocalMessageStore) := by
  refine ⟨⟨rfl, rfl, rfl, rfl, rfl⟩, ?_, ?_, ?_⟩
  · simp [NewLocalParty, makeSlots]
  · intro K slot h
    cases K <;>
      exact (List.eq_of_mem_replicate h)
  · intro oldParties N
    rfl

/-- C6: for every party and every two messages `m1`, `m2` of the same recognised kind `K`
from the same sender index `i` within `K`'s slot array, storing `m1` and then `m2` returns
`(true, nil)` both times and leaves the party in exactly the state reached by storing `m2`
alone; slot `i` of `K` holds `m2`, and each of the five slot arrays keeps its length through
both stores. -/
theorem StoreMessage_overwrites (p : LocalParty) (m1 m2 : ParsedMessage) (K : SlotKind)
    (h1 : m1.Content.slotKind = some K) (h2 : m2.Content.slotKind = some K)
    (hfrom : m1.GetFrom.Index = m2.GetFrom.Index)
    (hlo : 0 ≤ m1.GetFrom.Index) (hhi : m1.GetFrom.Index < (p.slots K).length) :
    ∃ p1 p2 : LocalParty,
      p.StoreMessage m1 = some (p1, true, none) ∧
      p1.StoreMessage m2 = some (p2, true, none) ∧
      p.StoreMessage m2 = some (p2, true, none) ∧
      (p2.slots K)[m2.GetFrom.Index.toNat]? = some (some m2) ∧
      (∀ K2 : SlotKind, (p1.slots K2).length = (p.slots K2).length ∧
        (p2.slots K2).length = (p.slots K2).length) := by
  have hlo2 : 0 ≤ m2.GetFrom.Index := hfrom ▸ hlo
  have hhi2 : m2.GetFrom.Index < (p.slots K).length := hfrom ▸ hhi
  have hn : m2.GetFrom.Index.toNat < (p.slots K).length := by omega
  refine ⟨p.withSlots K ((p.slots K).set m1.GetFrom.Index.toNat (some m1)),
    p.withSlots K ((p.slots K).set m2.GetFrom.Index.toNat (some m2)),
    StoreMessage_of_inRange p m1 K h1 hlo hhi, ?_,
    StoreMessage_of_inRange p m2 K h2 hlo2 hhi2, ?_, ?_⟩
  · rw [StoreMessage_of_inRange _ m2 K h2 hlo2 (by rw [slots_withSlots_same]; simpa using hhi2),
      slots_withSlots_same, withSlots_withSlots_same, hfrom, List.set_set]
  · rw [slots_withSlots_same]
    simp [hn]
  · intro K2
    exact ⟨length_slots_withSlots_set p K K2 _ _, length_slots_withSlots_set p K K2 _ _⟩

/-- Witness for C6: on the sample party, two different round 1 messages from `P1` in a row
leave the state that the second one alone leaves. -/
theorem StoreMessage_overwrites_witness :
    (0 ≤ (sampleMessage 1 (.DGRound1Message [1])).GetFrom.Index ∧
      (sampleMessage 1 (.DGRound1Message [1])).GetFrom.Index
        < (sampleParty.slots .DGRound1Message).length) ∧
    ∃ p1 p2 : LocalParty,
      sampleParty.StoreMessage (sampleMessage 1 (.DGRound1Message [1])) = some (p1, true, none) ∧
      p1.StoreMessage (sampleMessage 1 (.DGRound1Message [2])) = some (p2, true, none) ∧
      sampleParty.StoreMessage (sampleMessage 1 (.DGRound1Message [2])) = some (p2, true, none) ∧
      (p2.slots .DGRound1Message)[(sampleMessage 1 (.DGRound1Message [2])).GetFrom.Index.toNat]?
        = some (some (sampleMessage 1 (.DGRound1Message [2]))) ∧
      (∀ K2 : SlotKind, (p1.slots K2).length = (sampleParty.slots K2).length ∧
        (p2.slots K2).length = (sampleParty.slots K2).length) :=
  ⟨by decide,
    StoreMessage_overwrites sampleParty (sampleMessage 1 (.DGRound1Message [1]))
      (sampleMessage 1 (.DGRound1Message [2])) .DGRound1Message rfl rfl rfl (by decide)
      (by decide)⟩

/-- C7: for every party and every message whose content is not one of the five recognised
kinds, whatever its sender index, `StoreMessage` returns `(false, nil)` and leaves the party,
hence every slot of the five slot arrays, unchanged. -/
theorem StoreMessage_ignores_unrecognised (p : LocalParty) (msg : ParsedMessage)
    (h : msg.Content.slotKind = none) :
    p.StoreMessage msg = some (p, false, none) ∧
    ∀ (p2 : LocalParty) (ok : Bool) (err : Option Error),
      p.StoreMessage msg = some (p2, ok, err) →
        ok = false ∧ err = none ∧ ∀ K : SlotKind, p2.slots K = p.slots K := by
  have hs : p.StoreMessage msg = some (p, false, none) := by
    unfold LocalParty.StoreMessage
    cases hc : msg.Content <;> rw [hc] at h <;>
      simp only [MessageContent.slotKind, reduceCtorEq] at h
  refine ⟨hs, ?_⟩
  intro p2 ok err h2
  rw [hs] at h2
  simp only [Option.some.injEq, Prod.mk.injEq] at h2
  obtain ⟨rfl, rfl, rfl⟩ := h2
  exact ⟨rfl, rfl, fun _ => rfl⟩

/-- Witness for C7: a keygen message from a sender with index `-1` is ignored by the sample
party. -/
theorem StoreMessage_ignores_unrecognised_witness :
    sampleForeignMessage.Content.slotKind = none ∧
    sampleForeignMessage.GetFrom.Index = -1 ∧
    sampleParty.StoreMessage sampleForeignMessage = some (sampleParty, false, none) :=
  ⟨rfl, rfl, (StoreMessage_ignores_unrecognised sampleParty sampleForeignMessage rfl).1⟩

/-- C8: for every party and every message of recognised kind `K` from a sender index `i`
within `K`'s slot array, `StoreMessage` returns `(true, nil)` and changes at most slot `i` of
`K`'s slot array: every other slot of that array, the other four slot arrays, the temporary
data `NewVs`, `NewShares`, `VD`, the key-share record and the current round (and the
parameters and both sinks) are unchanged. -/
theorem StoreMessage_frame (p : LocalParty) (msg : ParsedMessage) (K : SlotKind)
    (hK : msg.Content.slotKind = some K) (hlo : 0 ≤ msg.GetFrom.Index)
    (hhi : msg.GetFrom.Index < (p.slots K).length) :
    ∃ p2 : LocalParty,
      p.StoreMessage msg = some (p2, true, none) ∧
      (∀ j : Nat, j ≠ msg.GetFrom.Index.toNat → (p2.slots K)[j]? = (p.slots K)[j]?) ∧
      (∀ K2 : SlotKind, K2 ≠ K → p2.slots K2 = p.slots K2) ∧
      p2.temp.NewVs = p.temp.NewVs ∧ p2.temp.NewShares = p.temp.NewShares ∧
      p2.temp.VD = p.temp.VD ∧ p2.key = p.key ∧ p2.Round = p.Round ∧
      p2.params = p.params ∧ p2.Out = p.Out ∧ p2.end_ = p.end_ := by
  refine ⟨_, StoreMessage_of_inRange p msg K hK hlo hhi, ?_, ?_, ?_⟩
  · intro j hj
    rw [slots_withSlots_same, List.getElem?_set_ne (Ne.symm hj)]
  · intro K2 h2
    exact slots_withSlots_other p K K2 _ h2
  · cases K <;> exact ⟨rfl, rfl, rfl, rfl, rfl, rfl, rfl, rfl⟩

/-- Witness for C8: a round 2 message from `P1` stored in the sample party. -/
theorem StoreMessage_frame_witness :
    (0 ≤ (sampleMessage 1 (.DGRound2Message2 [3])).GetFrom.Index ∧
      (sampleMessage 1 (.DGRound2Message2 [3])).GetFrom.Index
        < (sampleParty.slots .DGRound2Message2).length) ∧
    ∃ p2 : LocalParty,
      sampleParty.StoreMessage (sampleMessage 1 (.DGRound2Message2 [3]))
        = some (p2, true, none) ∧
      (∀ j : Nat, j ≠ (sampleMessage 1 (.DGRound2Message2 [3])).GetFrom.Index.toNat →
        (p2.slots .DGRound2Message2)[j]? = (sampleParty.slots .DGRound2Message2)[j]?) ∧
      (∀ K2 : SlotKind, K2 ≠ .DGRound2Message2 → p2.slots K2 = sampleParty.slots K2) ∧
      p2.temp.NewVs = sampleParty.temp.NewVs ∧ p2.temp.NewShares = sampleParty.temp.NewShares ∧
      p2.temp.VD = sampleParty.temp.VD ∧ p2.key = sampleParty.key ∧
      p2.Round = sampleParty.Round ∧ p2.params = sampleParty.params ∧
      p2.Out = sampleParty.Out ∧ p2.end_ = sampleParty.end_ :=
  ⟨by decide,
    StoreMessage_frame sampleParty (sampleMessage 1 (.DGRound2Message2 [3])) .DGRound2Message2
      rfl (by decide) (by decide)⟩

/-! ## The party lifecycle -/

/-- C9: for every party and every wire input on which `ParseWireMessage` fails with an error
`err`, `UpdateFromBytes` returns `(false, e)` with the non-nil error `e = p.WrapError(err)`,
whose cause is `err` and which names no culprit; the result is the same for every `Update`
(it is never called), and the party returned is the party given, so the five slot arrays, the
current round and its number are unchanged. -/
theorem UpdateFromBytes_parse_failure (noRound : Int)
    (ParseWireMessage : List Nat → PartyID → Bool → Bool → Except String ParsedMessage)
    (Update : LocalParty → ParsedMessage → UpdateResult)
    (p : LocalParty) (wireBytes : List Nat) (from_ : PartyID)
    (isBroadcast isToOldCommittee : Bool) (err : String)
    (h : ParseWireMessage wireBytes from_ isBroadcast isToOldCommittee = .error err) :
    ∃ (p2 : LocalParty) (e : Error),
      p.UpdateFromBytes noRound ParseWireMessage Update wireBytes from_ isBroadcast
          isToOldCommittee
        = some (p2, false, some e) ∧
      e = p.WrapError noRound err [] ∧ e.cause = err ∧ e.culprits = [] ∧
      (∀ Update2 : LocalParty → ParsedMessage → UpdateResult,
        p.UpdateFromBytes noRound ParseWireMessage Update2 wireBytes from_ isBroadcast
            isToOldCommittee
          = some (p2, false, some e)) ∧
      p2 = p ∧ (∀ K : SlotKind, p2.slots K = p.slots K) ∧ p2.Round = p.Round ∧
      p2.Round.live?.map (fun r => r.base.RoundNumber)
        = p.Round.live?.map (fun r => r.base.RoundNumber) := by
  refine ⟨p, p.WrapError noRound err [], ?_, rfl, (WrapError_cause_culprits _ _ _ _).1,
    (WrapError_cause_culprits _ _ _ _).2, ?_, rfl, fun _ => rfl, rfl, rfl⟩
  · simp only [LocalParty.UpdateFromBytes, h]
  · intro Update2
    simp only [LocalParty.UpdateFromBytes, h]

/-- Witness for C9: the sample decoder rejects the truncated input `1, 5, 9` (five payload
bytes announced, one present), and the sample party, which already holds a message, reports
the failure and stays as it was. -/
theorem UpdateFromBytes_parse_failure_witness :
    sampleParseWireMessage [1, 5, 9] (P 1) true false = .error "unexpected EOF" ∧
    ∃ (p2 : LocalParty) (e : Error),
      (sampleParty.withSlots .DGRound1Message
          [some (sampleMessage 0 (.DGRound1Message [4])), none]).UpdateFromBytes (-1)
        sampleParseWireMessage sampleUpdate [1, 5, 9] (P 1) true false
        = some (p2, false, some e) ∧
      e.cause = "unexpected EOF" ∧
      p2 = sampleParty.withSlots .DGRound1Message
          [some (sampleMessage 0 (.DGRound1Message [4])), none] :=
  ⟨rfl,
    match UpdateFromBytes_parse_failure (-1) sampleParseWireMessage sampleUpdate
      (sampleParty.withSlots .DGRound1Message
        [some (sampleMessage 0 (.DGRound1Message [4])), none])
      [1, 5, 9] (P 1) true false "unexpected EOF" rfl with
    | ⟨p2, e, h1, _, h3, _, _, h6, _⟩ => ⟨p2, e, h1, h3, h6⟩⟩

/-- C10: for every party state, if the current round is not a non-nil `round1` (it is the
nil interface, a nil pointer of any round type, `round1` included, or a live round of another
type), `Start` returns the non-nil error `p.WrapError(errors.New("could not start ..."))`,
whose cause is that invalid-state message and which names no culprit, whatever the rounds'
start logic is (it is not run), and leaves the party (message store, key record, current
round) unchanged; if the current round is a non-nil `round1`, `Start` returns exactly the
result of that round's `Start`. -/
theorem Start_guard (noRound : Int)
    (roundStart : LocalParty → Option (LocalParty × Option Error)) (p : LocalParty) :
    (p.Round.isRound1 = false →
      ∃ (p2 : LocalParty) (e : Error),
        p.Start noRound roundStart = some (p2, some e) ∧
        e = p.WrapError noRound couldNotStart [] ∧ e.cause = couldNotStart ∧
        e.culprits = [] ∧
        (∀ roundStart2 : LocalParty → Option (LocalParty × Option Error),
          p.Start noRound roundStart2 = some (p2, some e)) ∧
        p2 = p ∧ p2.temp.LocalMessageStore = p.temp.LocalMessageStore ∧ p2.key = p.key ∧
        p2.Round = p.Round) ∧
    (p.Round.isRound1 = true → p.Start noRound roundStart = roundStart p) ∧
    (p.Round.isRound1 = false ↔
      (p.Round = .nil ∨ (∃ k : RoundType, p.Round = .nilPtr k) ∨
        ∃ round : Round, p.Round = .ptr round ∧ round.kind ≠ .round1)) := by
  refine ⟨?_, ?_, ?_⟩
  · intro h
    have hs : ∀ rs : LocalParty → Option (LocalParty × Option Error),
        p.Start noRound rs = some (p, some (p.WrapError noRound couldNotStart [])) := by
      intro rs
      unfold LocalParty.Start
      cases hr : p.Round with
      | nil => rfl
      | nilPtr k => rfl
      | ptr round =>
        simp only [hr, RoundValue.isRound1, decide_eq_false_iff_not] at h
        simp [h]
    have hw : (p.WrapError noRound couldNotStart []).cause = couldNotStart ∧
        (p.WrapError noRound couldNotStart []).culprits = [] := by
      unfold LocalParty.WrapError
      cases p.Round <;> exact ⟨rfl, rfl⟩
    exact ⟨p, p.WrapError noRound couldNotStart [], hs roundStart, rfl, hw.1, hw.2, hs, rfl,
      rfl, rfl, rfl⟩
  · intro h
    unfold LocalParty.Start
    cases hr : p.Round with
    | nil => simp [hr, RoundValue.isRound1] at h
    | nilPtr k => simp [hr, RoundValue.isRound1] at h
    | ptr round =>
      simp only [hr, RoundValue.isRound1, decide_eq_true_eq] at h
      simp [h]
  · cases hr : p.Round with
    | nil => simp [RoundValue.isRound1]
    | nilPtr k => simp [RoundValue.isRound1]
    | ptr round => simp [RoundValue.isRound1]

/-- Witness for C10: the sample party moved to round 2, the one holding a nil `round1`
pointer and the one holding no round all refuse to start with the invalid-state error and no
culprit, and stay as they were; the sample party as constructed (at a live round 1) runs the
start logic it is given. -/
theorem Start_guard_witness :
    (samplePartyRound2.Round.isRound1 = false ∧
      ∃ e : Error, samplePartyRound2.Start (-1) sampleRoundStart
          = some (samplePartyRound2, some e) ∧
        e.cause = couldNotStart ∧ e.culprits = []) ∧
    (samplePartyNilRound1.Round.isRound1 = false ∧
      ∃ e : Error, samplePartyNilRound1.Start (-1) sampleRoundStart
          = some (samplePartyNilRound1, some e) ∧
        e.cause = couldNotStart ∧ e.culprits = []) ∧
    (samplePartyNoRound.Round.isRound1 = false ∧
      ∃ e : Error, samplePartyNoRound.Start (-1) sampleRoundStart
          = some (samplePartyNoRound, some e) ∧
        e.cause = couldNotStart ∧ e.culprits = []) ∧
    (sampleParty.Round.isRound1 = true ∧
      sampleParty.Start (-1) sampleRoundStart = sampleRoundStart sampleParty) :=
  ⟨⟨rfl, match (Start_guard (-1) sampleRoundStart samplePartyRound2).1 rfl with
      | ⟨_, e, h1, _, h3, h4, _, h6, _⟩ => ⟨e, h6 ▸ h1, h3, h4⟩⟩,
    ⟨rfl, match (Start_guard (-1) sampleRoundStart samplePartyNilRound1).1 rfl with
      | ⟨_, e, h1, _, h3, h4, _, h6, _⟩ => ⟨e, h6 ▸ h1, h3, h4⟩⟩,
    ⟨rfl, match (Start_guard (-1) sampleRoundStart samplePartyNoRound).1 rfl with
      | ⟨_, e, h1, _, h3, h4, _, h6, _⟩ => ⟨e, h6 ▸ h1, h3, h4⟩⟩,
    ⟨rfl, (Start_guard (-1) sampleRoundStart sampleParty).2.1 rfl⟩⟩

/-- Counterexample for C11: the sample party is at round 1; after `Finish` it is still at
round 1, and `Start` runs the start logic it is given (here: it returns no error and marks
the round started) instead of failing with the invalid-state error. -/
theorem Start_after_Finish_at_round1_succeeds :
    sampleParty.Finish.Round.isRound1 = true ∧
    sampleParty.Finish.Start (-1) sampleRoundStart = sampleRoundStart sampleParty.Finish ∧
    (∃ p2 : LocalParty, sampleParty.Finish.Start (-1) sampleRoundStart = some (p2, none) ∧
      p2.Round.live?.map (fun r => r.base.started) = some true) ∧
    sampleParty.Finish.Start (-1) sampleRoundStart ≠
      some (sampleParty.Finish, some (sampleParty.Finish.WrapError (-1) couldNotStart [])) := by
  refine ⟨rfl, rfl, ⟨_, rfl, rfl⟩, ?_⟩
  decide

/-- C11 (amended): `Finish` does not change the current round, so for every party on which
`Finish` has been called a subsequent `Start` fails with the invalid-state error when the
current round is not a non-nil `round1`, and returns the result of round 1's `Start` when the
party was still positioned at round 1 when `Finish` was called. -/
theorem Start_after_Finish (noRound : Int)
    (roundStart : LocalParty → Option (LocalParty × Option Error)) (p : LocalParty) :
    p.Finish.Round = p.Round ∧
    (p.Round.isRound1 = false →
      p.Finish.Start noRound roundStart
        = some (p.Finish, some (p.Finish.WrapError noRound couldNotStart [])) ∧
      (p.Finish.WrapError noRound couldNotStart []).cause = couldNotStart ∧
      (p.Finish.WrapError noRound couldNotStart []).culprits = []) ∧
    (p.Round.isRound1 = true → p.Finish.Start noRound roundStart = roundStart p.Finish) := by
  refine ⟨rfl, ?_, ?_⟩
  · intro h
    exact ⟨Start_of_not_round1 noRound roundStart p.Finish h,
      (WrapError_cause_culprits _ _ _ _).1, (WrapError_cause_culprits _ _ _ _).2⟩
  · intro h
    exact Start_of_round1 noRound roundStart p.Finish h

/-- Witness for C11: after `Finish` the sample party moved to round 2 refuses to start, and
the sample party as constructed still starts. -/
theorem Start_after_Finish_witness :
    (samplePartyRound2.Round.isRound1 = false ∧
      samplePartyRound2.Finish.Start (-1) sampleRoundStart
        = some (samplePartyRound2.Finish,
            some (samplePartyRound2.Finish.WrapError (-1) couldNotStart [])) ∧
      (samplePartyRound2.Finish.WrapError (-1) couldNotStart []).cause = couldNotStart) ∧
    (sampleParty.Round.isRound1 = true ∧
      sampleParty.Finish.Start (-1) sampleRoundStart = sampleRoundStart sampleParty.Finish) :=
  ⟨⟨rfl, ((Start_after_Finish (-1) sampleRoundStart samplePartyRound2).2.1 rfl).1,
      ((Start_after_Finish (-1) sampleRoundStart samplePartyRound2).2.1 rfl).2.1⟩,
    ⟨rfl, (Start_after_Finish (-1) sampleRoundStart sampleParty).2.2 rfl⟩⟩

/-- Counterexample for C12: two calls of `Finish` on the sample party deliver two values to
the terminal sink. -/
theorem Finish_twice_delivers_twice :
    sampleParty.end_ = [] ∧
    sampleParty.Finish.Finish.end_ = [sampleKey, sampleKey] ∧
    sampleParty.Finish.Finish.end_.length = 2 := by
  decide

/-- C12 (amended): one call of `Finish` appends exactly one value to the terminal sink, equal
to the party's current key-share record, and changes nothing else (slot arrays, temporary
data, key record, round, parameters, outbound sink); `n` calls in a row append `n` copies of
the record, so the sink receives one value per call, and exactly one only when `Finish` is
called once. -/
theorem Finish_appends_key (p : LocalParty) :
    p.Finish.end_ = p.end_ ++ [p.key] ∧
    p.Finish.end_.length = p.end_.length + 1 ∧
    (∀ K : SlotKind, p.Finish.slots K = p.slots K) ∧
    p.Finish.temp = p.temp ∧ p.Finish.key = p.key ∧ p.Finish.Round = p.Round ∧
    p.Finish.params = p.params ∧ p.Finish.Out = p.Out ∧
    (∀ n : Nat, (p.finishTimes n).end_ = p.end_ ++ List.replicate n p.key ∧
      (p.finishTimes n).end_.length = p.end_.length + n) := by
  refine ⟨rfl, ?_, fun _ => rfl, rfl, rfl, rfl, rfl, rfl, ?_⟩
  · simp [LocalParty.Finish]
  · intro n
    have h := (finishTimes_frame p n).1
    refine ⟨h, ?_⟩
    rw [h]
    simp

/-- C13: for every round state, every cause and every list of culprits, `base.WrapError`
returns the protocol error built by `tss.NewError` from exactly the given cause, the package
task name `TaskName` (`"signing"`), the round's own number, the local party's identity
`round.PartyID()` and the given culprits in the given order; with no culprits given the
culprit list is empty. -/
theorem WrapError_fields (round : base) (err : String) (culprits : List PartyID) :
    round.WrapError err culprits
      = NewError err TaskName round.number round.Parameters.PartyID culprits ∧
    (round.WrapError err culprits).cause = err ∧
    (round.WrapError err culprits).task = TaskName ∧
    TaskName = "signing" ∧
    (round.WrapError err culprits).round = round.number ∧
    (round.WrapError err culprits).round = round.RoundNumber ∧
    (round.WrapError err culprits).victim = round.Params.PartyID ∧
    (round.WrapError err culprits).culprits = culprits ∧
    (round.WrapError err []).culprits = [] :=
  ⟨rfl, rfl, rfl, rfl, rfl, rfl, rfl, rfl, rfl⟩

/-- C14: for every round state, `resetOk` sets every entry of `ok` to false, keeps the length
of `ok` and changes neither `started` nor `number` (nor the parameters); consequently, right
after `resetOk` on a round that tracks at least one peer, `CanProceed` is false, and, each
flag tracking a party of the committee list, `WaitingFor` lists all `len(ok)` tracked peers in
committee order, whatever the flags were before. -/
theorem resetOk_clears (round : base) :
    round.resetOk.ok = List.replicate round.ok.length false ∧
    (∀ b ∈ round.resetOk.ok, b = false) ∧
    round.resetOk.ok.length = round.ok.length ∧
    round.resetOk.started = round.started ∧
    round.resetOk.number = round.number ∧
    round.resetOk.Parameters = round.Parameters ∧
    (0 < round.ok.length → round.resetOk.CanProceed = false) ∧
    (round.ok.length ≤ round.Parameters.Parties.length →
      round.resetOk.WaitingFor = some (round.Parameters.Parties.take round.ok.length) ∧
      (round.Parameters.Parties.take round.ok.length).length = round.ok.length) := by
  have hok : round.resetOk.ok = List.replicate round.ok.length false := by
    simp [base.resetOk]
  refine ⟨hok, ?_, ?_, rfl, rfl, rfl, ?_, ?_⟩
  · intro b hb
    rw [hok] at hb
    exact List.eq_of_mem_replicate hb
  · rw [hok]; simp
  · intro hpos
    have hmem : false ∈ round.resetOk.ok := by
      rw [hok]
      exact List.mem_replicate.mpr ⟨by omega, rfl⟩
    cases hc : round.resetOk.CanProceed
    · rfl
    · exfalso
      unfold base.CanProceed at hc
      cases hs : round.resetOk.started
      · simp [hs] at hc
      · simp only [hs, Bool.not_true, Bool.false_eq_true, if_false] at hc
        have := (CanProceed_loop_iff _).mp hc false hmem
        cases this
  · intro hlen
    have hlen2 : round.resetOk.ok.length ≤ round.resetOk.Parameters.Parties.length := by
      rw [hok]; simpa using hlen
    refine ⟨?_, ?_⟩
    · rw [WaitingFor_eq_pendingZip round.resetOk hlen2, hok, pendingZip_replicate_false]
      rfl
    · simp [hlen]

/-- Witness for C14: the sample round with flags `true, false, false` over the committee
`P0, P1, P2`; after `resetOk` it cannot proceed and waits for `P0, P1, P2`. -/
theorem resetOk_clears_witness :
    (0 < sampleTracking.ok.length ∧
      sampleTracking.ok.length ≤ sampleTracking.Parameters.Parties.length) ∧
    sampleTracking.resetOk.ok = [false, false, false] ∧
    sampleTracking.resetOk.CanProceed = false ∧
    sampleTracking.resetOk.WaitingFor = some [P 0, P 1, P 2] :=
  ⟨by decide, (resetOk_clears sampleTracking).1,
    (resetOk_clears sampleTracking).2.2.2.2.2.2.1 (by decide),
    ((resetOk_clears sampleTracking).2.2.2.2.2.2.2 (by decide)).1⟩

/-- C16: for every round state with `started = true`, `WaitingFor` is empty if and only if
`CanProceed` is true; and for every round state with `started = false`, `CanProceed` is false,
also when `WaitingFor` is empty, which it is whenever all flags are true or no peer is
tracked. -/
theorem WaitingFor_empty_iff_CanProceed_of_started (round : base) :
    (round.started = true → (round.WaitingFor = some [] ↔ round.CanProceed = true)) ∧
    (round.started = false → round.CanProceed = false) ∧
    (round.started = false → (∀ b ∈ round.ok, b = true) →
      round.WaitingFor = some [] ∧ round.CanProceed = false) ∧
    (round.started = false → round.ok = [] →
      round.WaitingFor = some [] ∧ round.CanProceed = false) := by
  have hW : round.WaitingFor = some [] ↔ ∀ b ∈ round.ok, b = true := by
    unfold base.WaitingFor
    rw [WaitingFor_loop_nil_iff]
    simp
  have hF : round.started = false → round.CanProceed = false := by
    intro hs
    simp [base.CanProceed, hs]
  refine ⟨?_, hF, ?_, ?_⟩
  · intro hs
    rw [hW]
    simp [base.CanProceed, hs, CanProceed_loop_iff]
  · intro hs hall
    exact ⟨hW.mpr hall, hF hs⟩
  · intro hs hnil
    refine ⟨hW.mpr ?_, hF hs⟩
    rw [hnil]
    simp

/-- Witness for C16: the started sample round is waiting and cannot proceed; the sample round
that was never started has an empty `WaitingFor` and cannot proceed either. -/
theorem WaitingFor_empty_iff_CanProceed_of_started_witness :
    (sampleTracking.started = true ∧
      (sampleTracking.WaitingFor = some [] ↔ sampleTracking.CanProceed = true)) ∧
    (sampleUnstarted.started = false ∧ (∀ b ∈ sampleUnstarted.ok, b = true) ∧
      sampleUnstarted.WaitingFor = some [] ∧ sampleUnstarted.CanProceed = false) :=
  ⟨⟨rfl, (WaitingFor_empty_iff_CanProceed_of_started sampleTracking).1 rfl⟩,
    ⟨rfl, by decide,
      (WaitingFor_empty_iff_CanProceed_of_started sampleUnstarted).2.2.1 rfl (by decide)⟩⟩

/-- Counterexample for C17: with index `j = 0 < len(ok)`, (a) in the sample round with two
flags over a party list of one entry `WaitingFor` panics at `Ps[1]` before and after setting
`ok[0]`, so there is no result to compare; (b) in the sample round whose party list names
`P0` twice, with flags `true, false`, `WaitingFor` returns `P0` before and after, which is not
the previous result with the party `Ps[0] = P0` removed, although `P0` was present. -/
theorem setOk_WaitingFor_not_removal :
    (0 < sampleShortCommittee.ok.length ∧
      sampleShortCommittee.WaitingFor = none ∧
      (sampleShortCommittee.setOk 0).WaitingFor = none) ∧
    (0 < sampleRepeatedParty.ok.length ∧
      sampleRepeatedParty.Parameters.Parties[0]? = some (P 0) ∧
      sampleRepeatedParty.WaitingFor = some [P 0] ∧
      (sampleRepeatedParty.setOk 0).WaitingFor = some [P 0] ∧
      [P 0].erase (P 0) = [] ∧
      (sampleRepeatedParty.setOk 0).WaitingFor ≠ some ([P 0].erase (P 0))) := by
  decide

/-- C17 (amended): for every round state and every index `j < len(ok)`, setting `ok[j]` to
true never turns `CanProceed` from true to false; and when the party list has at least
`len(ok)` entries, `WaitingFor` returns before and after, the result after being a sublist of
the result before (the relative order is kept), and, when moreover the parties of the list
are pairwise distinct, equal to the previous result with the party `Ps[j]` removed, unchanged
if that party was absent. -/
theorem setOk_monotone (round : base) (j : Nat) (hj : j < round.ok.length) :
    (round.CanProceed = true → (round.setOk j).CanProceed = true) ∧
    (round.ok.length ≤ round.Parameters.Parties.length →
      ∃ (before after : List PartyID) (Q : PartyID),
        round.Parameters.Parties[j]? = some Q ∧
        round.WaitingFor = some before ∧
        (round.setOk j).WaitingFor = some after ∧
        after.Sublist before ∧
        (round.Parameters.Parties.Nodup →
          after = before.erase Q ∧ Q ∉ after ∧ (Q ∉ before → after = before))) := by
  constructor
  · intro hc
    unfold base.CanProceed at hc ⊢
    have hs : (round.setOk j).started = round.started := rfl
    rw [hs]
    cases hst : round.started
    · simp [hst] at hc
    · simp only [hst, Bool.not_true, Bool.false_eq_true, if_false] at hc ⊢
      rw [CanProceed_loop_iff] at hc ⊢
      intro b hb
      rcases List.mem_or_eq_of_mem_set hb with h | h
      · exact hc b h
      · exact h
  · intro hlen
    have hjP : j < round.Parameters.Parties.length := by omega
    have hlen2 : (round.setOk j).ok.length ≤ (round.setOk j).Parameters.Parties.length := by
      simpa [base.setOk] using hlen
    have hQ : round.Parameters.Parties[j]? = some round.Parameters.Parties[j] :=
      List.getElem?_eq_getElem hjP
    refine ⟨pendingZip round.Parameters.Parties round.ok,
      pendingZip round.Parameters.Parties (round.ok.set j true),
      round.Parameters.Parties[j], hQ, WaitingFor_eq_pendingZip round hlen,
      WaitingFor_eq_pendingZip (round.setOk j) hlen2,
      pendingZip_set_sublist _ _ _, ?_⟩
    intro hnd
    have herase := pendingZip_set_erase round.Parameters.Parties round.ok j _ hnd hQ
    refine ⟨herase, ?_, ?_⟩
    · rw [herase]
      have hndz : (pendingZip round.Parameters.Parties round.ok).Nodup :=
        (pendingZip_sublist _ _).nodup hnd
      exact fun hin => (List.Nodup.mem_erase_iff hndz).mp hin |>.1 rfl
    · intro hno
      rw [herase, List.erase_of_not_mem hno]

/-- Witness for C17: in the sample round with flags `true, false, false` over the distinct
parties `P0, P1, P2`, marking `P1` as verified turns the waiting list `P1, P2` into `P2`,
the previous list with `P1` erased; and the complete sample round can still proceed after
marking `P1` again. -/
theorem setOk_monotone_witness :
    (1 < sampleTracking.ok.length ∧
      sampleTracking.ok.length ≤ sampleTracking.Parameters.Parties.length ∧
      sampleTracking.Parameters.Parties.Nodup ∧
      ∃ (before after : List PartyID) (Q : PartyID),
        sampleTracking.Parameters.Parties[1]? = some Q ∧
        sampleTracking.WaitingFor = some before ∧
        (sampleTracking.setOk 1).WaitingFor = some after ∧
        after.Sublist before ∧ after = before.erase Q ∧ Q ∉ after) ∧
    (1 < sampleComplete.ok.length ∧ sampleComplete.CanProceed = true ∧
      (sampleComplete.setOk 1).CanProceed = true) :=
  ⟨⟨by decide, by decide, by decide,
      match (setOk_monotone sampleTracking 1 (by decide)).2 (by decide) with
      | ⟨before, after, Q, h1, h2, h3, h4, h5⟩ =>
        ⟨before, after, Q, h1, h2, h3, h4, (h5 (by decide)).1, (h5 (by decide)).2.1⟩⟩,
    ⟨by decide, by decide,
      (setOk_monotone sampleComplete 1 (by decide)).1 (by decide)⟩⟩

/-! ## Order of arrival -/

/-- C18: for every party and every two messages of recognised kinds with sender indices
within their kinds' slot arrays, all four stores of the two orders return `(true, nil)`; if
the messages differ in kind or in sender index, both orders end in the same party, hence the
same five slot arrays; so the two orders can only end differently for two different messages
of the same kind from the same sender index. -/
theorem StoreMessage_commutes (p : LocalParty) (m1 m2 : ParsedMessage) (K1 K2 : SlotKind)
    (h1 : m1.Content.slotKind = some K1) (h2 : m2.Content.slotKind = some K2)
    (hlo1 : 0 ≤ m1.GetFrom.Index) (hhi1 : m1.GetFrom.Index < (p.slots K1).length)
    (hlo2 : 0 ≤ m2.GetFrom.Index) (hhi2 : m2.GetFrom.Index < (p.slots K2).length) :
    ∃ pa pb pab pba : LocalParty,
      p.StoreMessage m1 = some (pa, true, none) ∧
      pa.StoreMessage m2 = some (pab, true, none) ∧
      p.StoreMessage m2 = some (pb, true, none) ∧
      pb.StoreMessage m1 = some (pba, true, none) ∧
      ((K1 ≠ K2 ∨ m1.GetFrom.Index ≠ m2.GetFrom.Index) →
        pab = pba ∧ ∀ K : SlotKind, pab.slots K = pba.slots K) ∧
      (pab ≠ pba → K1 = K2 ∧ m1.GetFrom.Index = m2.GetFrom.Index ∧ m1 ≠ m2) := by
  have ha := StoreMessage_of_inRange p m1 K1 h1 hlo1 hhi1
  have hb := StoreMessage_of_inRange p m2 K2 h2 hlo2 hhi2
  have hhi2a : m2.GetFrom.Index
      < ((p.withSlots K1 ((p.slots K1).set m1.GetFrom.Index.toNat (some m1))).slots K2).length := by
    rw [length_slots_withSlots_set]; exact hhi2
  have hhi1b : m1.GetFrom.Index
      < ((p.withSlots K2 ((p.slots K2).set m2.GetFrom.Index.toNat (some m2))).slots K1).length := by
    rw [length_slots_withSlots_set]; exact hhi1
  have hab := StoreMessage_of_inRange _ m2 K2 h2 hlo2 hhi2a
  have hba := StoreMessage_of_inRange _ m1 K1 h1 hlo1 hhi1b
  have hcomm : (K1 ≠ K2 ∨ m1.GetFrom.Index ≠ m2.GetFrom.Index) →
      (p.withSlots K1 ((p.slots K1).set m1.GetFrom.Index.toNat (some m1))).withSlots K2
        (((p.withSlots K1 ((p.slots K1).set m1.GetFrom.Index.toNat (some m1))).slots K2).set
          m2.GetFrom.Index.toNat (some m2))
      = (p.withSlots K2 ((p.slots K2).set m2.GetFrom.Index.toNat (some m2))).withSlots K1
        (((p.withSlots K2 ((p.slots K2).set m2.GetFrom.Index.toNat (some m2))).slots K1).set
          m1.GetFrom.Index.toNat (some m1)) := by
    intro hdiff
    by_cases hK : K1 = K2
    · subst hK
      have hi : m1.GetFrom.Index ≠ m2.GetFrom.Index := by
        rcases hdiff with h | h
        · exact absurd rfl h
        · exact h
      have hn : m1.GetFrom.Index.toNat ≠ m2.GetFrom.Index.toNat := by omega
      rw [slots_withSlots_same, slots_withSlots_same, withSlots_withSlots_same,
        withSlots_withSlots_same, List.set_comm _ _ _ hn]
    · rw [slots_withSlots_other _ _ _ _ (Ne.symm hK), slots_withSlots_other _ _ _ _ hK,
        withSlots_comm _ _ _ _ _ hK]
  refine ⟨_, _, _, _, ha, hab, hb, hba, ?_, ?_⟩
  · intro hdiff
    have := hcomm hdiff
    exact ⟨this, fun K => by rw [this]⟩
  · intro hne
    by_cases hK : K1 = K2
    · by_cases hi : m1.GetFrom.Index = m2.GetFrom.Index
      · refine ⟨hK, hi, ?_⟩
        intro hm
        subst hm
        subst hK
        exact hne rfl
      · exact absurd (hcomm (Or.inr hi)) hne
    · exact absurd (hcomm (Or.inl hK)) hne

/-- Witness for C18: a round 1 message from `P0` and a round 2 message from `P1` stored in the
sample party in either order. -/
theorem StoreMessage_commutes_witness :
    ((0 ≤ (sampleMessage 0 (.DGRound1Message [1])).GetFrom.Index ∧
        (sampleMessage 0 (.DGRound1Message [1])).GetFrom.Index
          < (sampleParty.slots .DGRound1Message).length) ∧
      (0 ≤ (sampleMessage 1 (.DGRound2Message1 [2])).GetFrom.Index ∧
        (sampleMessage 1 (.DGRound2Message1 [2])).GetFrom.Index
          < (sampleParty.slots .DGRound2Message1).length)) ∧
    ∃ pa pb pab pba : LocalParty,
      sampleParty.StoreMessage (sampleMessage 0 (.DGRound1Message [1]))
        = some (pa, true, none) ∧
      pa.StoreMessage (sampleMessage 1 (.DGRound2Message1 [2])) = some (pab, true, none) ∧
      sampleParty.StoreMessage (sampleMessage 1 (.DGRound2Message1 [2]))
        = some (pb, true, none) ∧
      pb.StoreMessage (sampleMessage 0 (.DGRound1Message [1])) = some (pba, true, none) ∧
      pab = pba :=
  ⟨by decide,
    match StoreMessage_commutes sampleParty (sampleMessage 0 (.DGRound1Message [1]))
      (sampleMessage 1 (.DGRound2Message1 [2])) .DGRound1Message .DGRound2Message1 rfl rfl
      (by decide) (by decide) (by decide) (by decide) with
    | ⟨pa, pb, pab, pba, h1, h2, h3, h4, h5, _⟩ =>
      ⟨pa, pb, pab, pba, h1, h2, h3, h4, (h5 (Or.inl (by decide))).1⟩⟩

end TssLib
